import Mathlib

/-!
Verification of the permission-scoping / resource-naming / ordering core of
`source/lib/blueprints/byom/pipeline_definitions/deploy_actions.py`.

The module under inspection is a set of factory functions that assemble
cloud deployment pipeline stages: IAM policy statements scoped to resource
identifier sets, lambda execution roles with conditional (feature-flagged)
policies, randomly suffixed stack-set names, codepipeline actions with run
orders, and custom-resource property maps.  We embed these functions
shallowly: environment dictionaries and property maps become association
lists `List (String × String)`, policy statements become records of action
and resource string lists, and the random 128-bit value consumed by
`uuid.uuid4()` becomes an explicit `Nat` argument.

Functions whose bodies live in the sibling module `iam_policies` (only
imported, not part of the sources) and the spec-level `buildPlan` validator
are modelled from the specification text; each such definition carries a
doc comment starting with `Modelled from the spec:`.
-/

namespace DeployActions

/-- Operation categories of the Policy Builder (spec section 4.1). -/
inductive Category where
  | storageRead
  | storageWrite
  | computeBaselineJob
  | computeBatchTransform
  | stackManagement
  | keyManagement
  deriving DecidableEq, Repr

/-- Build-time validation failures of the Policy Builder. -/
inductive PolicyError where
  | InvalidCategory
  | EmptyResourceSet
  deriving DecidableEq, Repr

/-- A permission statement: a fixed action set and a resource identifier set
(represented as a duplicate-free list), with implicit allow effect. -/
structure PermissionStatement where
  actions : List String
  resources : List String
  deriving DecidableEq, Repr

/-- Modelled from the spec: the fixed action enumeration per category
(spec section 4.1, the `iam_policies` module is not among the sources). -/
def actionsFor : Category → List String
  | .storageRead => ["get-object", "list-bucket"]
  | .storageWrite => ["put-object"]
  | .computeBaselineJob =>
      ["create-processing-job", "describe-processing-job", "stop-processing-job",
       "list-processing-jobs"]
  | .computeBatchTransform =>
      ["create-transform-job", "describe-transform-job", "stop-transform-job",
       "describe-model", "describe-endpoint"]
  | .stackManagement =>
      ["create-stack-set", "update-stack-set", "delete-stack-set",
       "describe-stack-set", "describe-stack-set-operation"]
  | .keyManagement =>
      ["encrypt", "decrypt", "generate-data-key", "describe-key"]

/-- Modelled from the spec: raw statement construction used by the policy
helpers of `iam_policies` (not among the sources); duplicates in the
identifier list are removed, as the callers in `deploy_actions.py` do with
`list(set(...))`. -/
def mkStatement (cat : Category) (resourceIdentifiers : List String) : PermissionStatement :=
  { actions := actionsFor cat, resources := resourceIdentifiers.dedup }

/-- Modelled from the spec: `buildPolicy(category, resourceIdentifiers)`
(spec section 4.1); signals `EmptyResourceSet` on an empty identifier set,
otherwise returns the statement scoped to exactly the deduplicated set. -/
def buildPolicy (cat : Category) (resourceIdentifiers : List String) :
    Except PolicyError PermissionStatement :=
  if resourceIdentifiers.isEmpty then .error .EmptyResourceSet
  else .ok (mkStatement cat resourceIdentifiers)

/-! ## Resource Namer

Source line 307: `stack_name = f"{stack_name}-{str(uuid.uuid4())[:8]}"`.
`str(uuid.uuid4())` renders a 128-bit random value as 32 lowercase
hexadecimal digits in 8-4-4-4-12 groups; its first eight characters are the
hex digits of the topmost 32 bits, which the version/variant overrides of
uuid4 leave untouched.  The random 128-bit value is passed explicitly. -/

/-- Lowercase hexadecimal digit for a value below 16 ('0'..'9','a'..'f'). -/
def hexDigit (n : Nat) : Char :=
  if n < 10 then Char.ofNat (48 + n) else Char.ofNat (87 + n)

/-- Big-endian, zero-padded list of `w` lowercase hex digits of `n`. -/
def toHexPad (n w : Nat) : List Char :=
  (List.range w).map (fun i => hexDigit (n / 16 ^ (w - 1 - i) % 16))

/-- First eight characters of `str(uuid.uuid4())` for the 128-bit random
value `r`: the eight hex digits of bits 96..127. -/
def uuid4FirstEight (r : Nat) : String :=
  ⟨toHexPad (r / 2 ^ 96 % 2 ^ 32) 8⟩

/-- Source line 307: append a hyphen and the first eight characters of a
fresh uuid4 to the caller-supplied stack name. -/
def makeUniqueStackName (stack_name : String) (r : Nat) : String :=
  stack_name ++ "-" ++ uuid4FirstEight r

/-- The sixteen lowercase hexadecimal digit characters. -/
def lowerHexDigits : List Char :=
  "0123456789abcdef".toList

theorem hexDigit_mem_lowerHexDigits {n : Nat} (h : n < 16) :
    hexDigit n ∈ lowerHexDigits := by
  interval_cases n <;> decide

theorem toHexPad_length (n w : Nat) : (toHexPad n w).length = w := by
  simp [toHexPad]

theorem toHexPad_mem_lowerHexDigits (n w : Nat) {c : Char}
    (h : c ∈ toHexPad n w) : c ∈ lowerHexDigits := by
  simp only [toHexPad, List.mem_map] at h
  obtain ⟨i, _, rfl⟩ := h
  exact hexDigit_mem_lowerHexDigits (Nat.mod_lt _ (by norm_num))

/-! ## Role Composer and the conditional KMS policy

In `create_data_baseline_job` (source lines 199-212) the KMS policy is
wrapped in `ConditionalResources(kms_key_arn_provided_condition)` before it
is attached to the sagemaker role: the policy resource materializes only
when the condition holds.  `ConditionalResources` lives in
`lib/conditional_resource` (not among the sources); its effect on the
finished template is modelled from the spec. -/

/-- An execution role: unconditional statements plus statements paired with
a feature flag, as assembled by `create_data_baseline_job`. -/
structure ExecutionRole where
  name : String
  trustedPrincipal : String
  statements : List PermissionStatement
  conditionalStatements : List (PermissionStatement × Bool)
  deriving DecidableEq, Repr

/-- Modelled from the spec: the materialized union of a role's statements
and its conditional statements — a conditional statement is included
exactly when its paired feature flag resolved true at plan-assembly time
(spec section 4.2; `ConditionalResources` is not among the sources). -/
def materializedStatements (role : ExecutionRole) : List PermissionStatement :=
  role.statements ++ (role.conditionalStatements.filter (fun p => p.2)).map (fun p => p.1)

/-- Modelled from the spec: `kms_policy_document` of `iam_policies` (not
among the sources) builds the key-management statement scoped to the given
key ARN. -/
def kms_policy_document (kms_key_arn : String) : PermissionStatement :=
  mkStatement .keyManagement [kms_key_arn]

/-- Source lines 184-233: the sagemaker role assembled by
`create_data_baseline_job` — read access to the assets bucket and the
training data, write access to the baseline output prefix, the baseline
job statement, an assume-role statement on the role's own ARN, and the
KMS statement conditional on `kms_key_arn_provided_condition`. -/
def createBaselineSagemakerRole (assets_bucket_name training_data_location
    baseline_job_output_location baseline_job_name role_arn kms_key_arn : String)
    (kms_key_arn_provided : Bool) : ExecutionRole :=
  { name := "create_baseline_sagemaker_role"
    trustedPrincipal := "sagemaker.amazonaws.com"
    statements :=
      [mkStatement .computeBaselineJob [baseline_job_name],
       mkStatement .storageRead
         ["arn:aws:s3:::" ++ assets_bucket_name,
          "arn:aws:s3:::" ++ assets_bucket_name ++ "/" ++ training_data_location],
       mkStatement .storageWrite ["arn:aws:s3:::" ++ baseline_job_output_location ++ "/*"],
       { actions := ["sts:AssumeRole"], resources := [role_arn] }]
    conditionalStatements := [(kms_policy_document kms_key_arn, kms_key_arn_provided)] }

/-! ## Stage environments (pass-through of caller configuration)

Source lines 136-144 (`batch_transform`) and 244-257
(`create_data_baseline_job`): the `environment` dictionaries of the two
lambda functions, embedded as association lists in the literal key order of
the source. -/

/-- The subset of `batch_transform`'s output that the claims inspect: the
resource lists of its read/write policies and the lambda environment. -/
structure BatchTransformLambda where
  readResources : List String
  writeResources : List String
  environment : List (String × String)
  deriving DecidableEq, Repr

/-- Source lines 63-149: `batch_transform`.  The read policy deduplicates
its four ARNs with `list(set(...))`; the write policy covers the output
location's object wildcard; the environment passes six caller values plus
a fixed log level.  `batch_input_bucket` feeds only the read policy. -/
def batch_transform (model_name inference_instance assets_bucket_name
    batch_input_bucket batch_inference_data batch_job_output_location
    kms_key_arn : String) : BatchTransformLambda :=
  { readResources :=
      (["arn:aws:s3:::" ++ assets_bucket_name,
        "arn:aws:s3:::" ++ assets_bucket_name ++ "/*",
        "arn:aws:s3:::" ++ batch_input_bucket,
        "arn:aws:s3:::" ++ batch_inference_data]).dedup
    writeResources := ["arn:aws:s3:::" ++ batch_job_output_location ++ "/*"]
    environment :=
      [("model_name", model_name),
       ("inference_instance", inference_instance),
       ("assets_bucket", assets_bucket_name),
       ("batch_inference_data", batch_inference_data),
       ("batch_job_output_location", batch_job_output_location),
       ("kms_key_arn", kms_key_arn),
       ("LOG_LEVEL", "INFO")] }

/-- Source lines 244-257: the environment of the
`create_data_baseline_job` lambda, in literal key order. -/
def createDataBaselineJobEnvironment (baseline_job_name assets_bucket_name
    endpoint_name training_data_location baseline_job_output_location
    instance_type instance_volume_size max_runtime_seconds role_arn
    kms_key_arn stack_name : String) : List (String × String) :=
  [("BASELINE_JOB_NAME", baseline_job_name),
   ("ASSETS_BUCKET", assets_bucket_name),
   ("SAGEMAKER_ENDPOINT_NAME", endpoint_name),
   ("TRAINING_DATA_LOCATION", training_data_location),
   ("BASELINE_JOB_OUTPUT_LOCATION", baseline_job_output_location),
   ("INSTANCE_TYPE", instance_type),
   ("INSTANCE_VOLUME_SIZE", instance_volume_size),
   ("MAX_RUNTIME_SECONDS", max_runtime_seconds),
   ("ROLE_ARN", role_arn),
   ("KMS_KEY_ARN", kms_key_arn),
   ("STACK_NAME", stack_name),
   ("LOG_LEVEL", "INFO")]

/-! ## create_stackset_action (source lines 268-348) -/

/-- Modelled from the spec: `cloudformation_stackset_policy` of
`iam_policies` (not among the sources) builds the stack-management
statement scoped to the named stack-set's own ARN pattern. -/
def cloudformation_stackset_policy (stack_name : String) : PermissionStatement :=
  mkStatement .stackManagement
    ["arn:aws:cloudformation:*:*:stackset/" ++ stack_name ++ ":*"]

/-- Modelled from the spec: `cloudformation_stackset_instances_policy` of
`iam_policies` (not among the sources) builds the stack-management
statement for the named stack-set's instances, scoped to the same
stack-set name. -/
def cloudformation_stackset_instances_policy (stack_name : String) : PermissionStatement :=
  mkStatement .stackManagement
    ["arn:aws:cloudformation:*:*:stackset-target/" ++ stack_name ++ ":*"]

/-- The parts of `create_stackset_action`'s result the claims inspect: the
stack-management statements attached to the lambda role, the
`user_parameters` of the `LambdaInvokeAction`, and its run order and
namespace. -/
structure StacksetAction where
  actionName : String
  stackManagementPolicies : List PermissionStatement
  userParameters : List (String × String)
  runOrder : Nat
  variablesNamespace : String
  deriving DecidableEq, Repr

/-- Source lines 268-348: `create_stackset_action`.  Line 307 rebinds
`stack_name` to the suffixed name; lines 309-313 scope both stack-set
policies to it; lines 332-347 pass it as `stackset_name` in the action's
user parameters with `run_order=1`.  `r` is the random 128-bit value drawn
by `uuid.uuid4()`. -/
def create_stackset_action (action_name artifact template_file stage_params_file
    accound_ids org_ids regions stack_name : String) (r : Nat) : StacksetAction :=
  let suffixed := makeUniqueStackName stack_name r
  { actionName := action_name
    stackManagementPolicies :=
      [cloudformation_stackset_policy suffixed,
       cloudformation_stackset_instances_policy suffixed]
    userParameters :=
      [("stackset_name", suffixed),
       ("artifact", artifact),
       ("template_file", template_file),
       ("stage_params_file", stage_params_file),
       ("accound_ids", accound_ids),
       ("org_ids", org_ids),
       ("regions", regions)]
    runOrder := 1
    variablesNamespace := action_name ++ "-namespace" }

/-! ## Pipeline Plan validation

`create_cloudformation_action` (source lines 351-382) and
`create_stackset_action` annotate actions with a `run_order`; the ordering
validator `buildPlan` itself belongs to the spec's Pipeline Plan component
(section 4.5) and has no body among the sources, so it is modelled from
the spec. -/

/-- An input or output artifact of a stage; `producingStage` is `none` for
external artifacts. -/
structure ArtifactReference where
  producingStage : Option String
  path : String
  deriving DecidableEq, Repr

/-- A stage descriptor with its explicit run order and declared inputs. -/
structure StageDescriptor where
  name : String
  runOrder : Nat
  inputs : List ArtifactReference
  deriving DecidableEq, Repr

/-- Plan-build failure naming the offending stage and artifact path. -/
inductive PlanError where
  | DependencyOrderViolation (stage : String) (artifact : String)
  deriving DecidableEq, Repr

/-- Modelled from the spec: the single validation pass of `buildPlan`
(spec section 4.5) — for each stage, the first input artifact whose
non-external producing stage does not have a strictly smaller run order. -/
def firstOrderViolation (stages : List StageDescriptor) : Option (String × String) :=
  stages.findSome? (fun s =>
    s.inputs.findSome? (fun a =>
      match a.producingStage with
      | none => none
      | some p =>
        match stages.find? (fun t => t.name = p) with
        | none => none
        | some t => if t.runOrder < s.runOrder then none else some (s.name, a.path)))

/-- Modelled from the spec: `buildPlan(stages)` (spec section 4.5) —
signals `DependencyOrderViolation` naming the offending stage and artifact
when some input's producing stage does not run strictly earlier, and
otherwise returns the stages unchanged. -/
def buildPlan (stages : List StageDescriptor) :
    Except PlanError (List StageDescriptor) :=
  match firstOrderViolation stages with
  | some (n, p) => .error (.DependencyOrderViolation n p)
  | none => .ok stages

theorem findSome?_eq_none_iff {α β : Type} {f : α → Option β} {l : List α} :
    l.findSome? f = none ↔ ∀ x ∈ l, f x = none := by
  induction l with
  | nil => simp
  | cons a l ih =>
    rw [List.findSome?_cons]
    cases h : f a with
    | none => simp [h, ih]
    | some b => simp [h]

theorem buildPlan_ok_order {stages out : List StageDescriptor}
    (hok : buildPlan stages = .ok out) :
    ∀ s ∈ stages, ∀ a ∈ s.inputs, ∀ p, a.producingStage = some p →
      ∀ t, stages.find? (fun u => u.name = p) = some t → t.runOrder < s.runOrder := by
  intro s hs a ha p hp t ht
  have hnone : firstOrderViolation stages = none := by
    unfold buildPlan at hok
    cases h : firstOrderViolation stages with
    | none => rfl
    | some v => rw [h] at hok; cases hok
  have hstage := (findSome?_eq_none_iff.mp hnone) s hs
  have hart := (findSome?_eq_none_iff.mp hstage) a ha
  rw [hp] at hart
  dsimp only at hart
  rw [ht] at hart
  dsimp only at hart
  by_contra hlt
  rw [if_neg hlt] at hart
  cases hart

/-! ## Custom resource properties (source lines 424-434)

The property map handed to `core.CustomResource` is the Python dictionary
display `{"function_name": ..., "message": ..., **custom_resource_properties}`:
the two defaults first, then the caller's pairs merged in with
later-bound keys overriding earlier ones in place. -/

/-- Python dictionary assignment `d[k] = v` on an association list: update
the existing entry for `k` in place, or append a new one. -/
def dictInsert (l : List (String × String)) (k v : String) :
    List (String × String) :=
  if l.any (fun p => p.1 = k) then
    l.map (fun p => if p.1 = k then (k, v) else p)
  else l ++ [(k, v)]

/-- Python dictionary merge `{**base, **ext}`: each pair of `ext` assigned
into `base` in order. -/
def dictUpdate (base ext : List (String × String)) : List (String × String) :=
  ext.foldl (fun acc p => dictInsert acc p.1 p.2) base

/-- Source lines 424-434: the `properties` argument of the
`Custom::InvokeLambda` resource built by
`create_invoke_lambda_custom_resource`. -/
def customResourceProperties (lambda_function_name : String)
    (custom_resource_properties : List (String × String)) :
    List (String × String) :=
  dictUpdate
    [("function_name", lambda_function_name),
     ("message", "Invoking lambda function: " ++ lambda_function_name)]
    custom_resource_properties

theorem lookup_cons (a : String) (p : String × String) (l : List (String × String)) :
    List.lookup a (p :: l) = if a = p.1 then some p.2 else List.lookup a l := by
  cases p with
  | mk k v =>
    by_cases h : a = k <;> simp [List.lookup, h, beq_iff_eq, beq_false_of_ne]

theorem lookup_eq_none_of_not_mem_keys (a : String) (l : List (String × String))
    (h : a ∉ l.map Prod.fst) : List.lookup a l = none := by
  induction l with
  | nil => rfl
  | cons p l ih =>
    have h1 : ¬ a = p.1 := fun he => h (by simp [he])
    have h2 : a ∉ l.map Prod.fst := fun he => h (by simp [he])
    rw [lookup_cons, if_neg h1]
    exact ih h2

theorem lookup_append (a : String) (l l' : List (String × String)) :
    List.lookup a (l ++ l') =
      match List.lookup a l with
      | some v => some v
      | none => List.lookup a l' := by
  induction l with
  | nil => simp [List.lookup]
  | cons p l ih =>
    by_cases h : a = p.1 <;>
      simp [List.cons_append, lookup_cons, h, ih]

theorem lookup_map_overwrite_ne (l : List (String × String)) (k v k' : String)
    (h : k' ≠ k) :
    List.lookup k' (l.map (fun p => if p.1 = k then (k, v) else p)) =
      List.lookup k' l := by
  induction l with
  | nil => rfl
  | cons p l ih =>
    by_cases hp : p.1 = k
    · rw [List.map_cons, if_pos hp, lookup_cons, lookup_cons, if_neg h,
        if_neg (by simpa [hp] using h), ih]
    · rw [List.map_cons, if_neg hp, lookup_cons, lookup_cons, ih]

theorem lookup_map_overwrite_self (l : List (String × String)) (k v : String)
    (h : l.any (fun p => p.1 = k) = true) :
    List.lookup k (l.map (fun p => if p.1 = k then (k, v) else p)) = some v := by
  induction l with
  | nil => simp at h
  | cons p l ih =>
    by_cases hp : p.1 = k
    · rw [List.map_cons, if_pos hp, lookup_cons, if_pos rfl]
    · have h' : l.any (fun p => p.1 = k) = true := by
        simpa [List.any_cons, hp] using h
      rw [List.map_cons, if_neg hp, lookup_cons, if_neg (fun he => hp he.symm), ih h']

theorem lookup_dictInsert (l : List (String × String)) (k v k' : String) :
    List.lookup k' (dictInsert l k v) =
      if k' = k then some v else List.lookup k' l := by
  unfold dictInsert
  split
  case isTrue hany =>
    by_cases hk : k' = k
    · subst hk
      rw [if_pos rfl, lookup_map_overwrite_self l k' v hany]
    · rw [if_neg hk, lookup_map_overwrite_ne l k v k' hk]
  case isFalse hany =>
    have hnone : List.lookup k l = none := by
      refine lookup_eq_none_of_not_mem_keys k l (fun hmem => hany ?_)
      rw [List.any_eq_true]
      obtain ⟨p, hp, he⟩ := List.mem_map.mp hmem
      exact ⟨p, hp, by simp [he]⟩
    by_cases hk : k' = k
    · subst hk
      rw [if_pos rfl, lookup_append, hnone]
      simp [List.lookup]
    · rw [if_neg hk, lookup_append]
      cases hx : List.lookup k' l with
      | some w => rfl
      | none => simp [List.lookup, beq_false_of_ne hk]

theorem lookup_dictUpdate (base ext : List (String × String)) (k : String)
    (h : (ext.map Prod.fst).Nodup) :
    List.lookup k (dictUpdate base ext) =
      match List.lookup k ext with
      | some v => some v
      | none => List.lookup k base := by
  induction ext generalizing base with
  | nil => simp [dictUpdate, List.lookup]
  | cons p ext ih =>
    rw [List.map_cons, List.nodup_cons] at h
    obtain ⟨hnotin, hnd⟩ := h
    have hextnone : List.lookup p.1 ext = none :=
      lookup_eq_none_of_not_mem_keys p.1 ext hnotin
    have hstep : dictUpdate base (p :: ext) = dictUpdate (dictInsert base p.1 p.2) ext := by
      simp [dictUpdate]
    rw [hstep, ih _ hnd]
    by_cases hk : k = p.1
    · subst hk
      rw [hextnone, lookup_cons, if_pos rfl, lookup_dictInsert, if_pos rfl]
    · rw [lookup_cons, if_neg hk]
      cases hx : List.lookup k ext with
      | some v => rfl
      | none => rw [lookup_dictInsert, if_neg hk]

/-! ## Example stages for the Pipeline Plan claims -/

/-- Stage `A` with run order 1 and no inputs. -/
def stageA1 : StageDescriptor := { name := "A", runOrder := 1, inputs := [] }

/-- Stage `B` with run order 2 consuming `A`'s output. -/
def stageB2 : StageDescriptor :=
  { name := "B", runOrder := 2, inputs := [{ producingStage := some "A", path := "A.output" }] }

/-- Stage `A` with run order 2 and no inputs. -/
def stageA2 : StageDescriptor := { name := "A", runOrder := 2, inputs := [] }

/-- Stage `B` with run order 1 consuming `A`'s output. -/
def stageB1 : StageDescriptor :=
  { name := "B", runOrder := 1, inputs := [{ producingStage := some "A", path := "A.output" }] }

/-- Length of the generated suffix. -/
theorem uuid4FirstEight_length (r : Nat) : (uuid4FirstEight r).length = 8 := by
  simp [uuid4FirstEight, String.length, toHexPad_length]

/-! ## Claim theorems -/

/-- C1: for every valid policy category and every non-empty resource
identifier list, `buildPolicy` succeeds, and the resulting statement's
resource set is exactly the deduplicated input identifier set: it is
duplicate-free and contains an identifier precisely when the caller
supplied it — nothing added, nothing omitted, no expansion. -/
theorem buildPolicy_resources_exact (cat : Category)
    (resourceIdentifiers : List String) (h : resourceIdentifiers ≠ []) :
    ∃ s, buildPolicy cat resourceIdentifiers = .ok s ∧
      s.resources = resourceIdentifiers.dedup ∧
      s.resources.Nodup ∧
      (∀ x, x ∈ s.resources ↔ x ∈ resourceIdentifiers) := by
  refine ⟨mkStatement cat resourceIdentifiers, ?_, rfl, List.nodup_dedup _, ?_⟩
  · unfold buildPolicy
    rw [if_neg (by simpa using h)]
  · intro x
    exact List.mem_dedup

/-- C1 witness: `buildPolicy` on `storage-read` and the duplicated list
`["a", "b", "a"]`. -/
theorem buildPolicy_resources_exact_witness :
    (["a", "b", "a"] : List String) ≠ [] ∧
      ∃ s, buildPolicy .storageRead ["a", "b", "a"] = .ok s ∧
        s.resources = (["a", "b", "a"] : List String).dedup ∧
        s.resources.Nodup ∧
        (∀ x, x ∈ s.resources ↔ x ∈ (["a", "b", "a"] : List String)) :=
  ⟨by decide, buildPolicy_resources_exact .storageRead ["a", "b", "a"] (by decide)⟩

/-- C2: for every caller-supplied stack name and every 128-bit random draw,
the generated unique name is the concatenation of the name, a literal
hyphen separator, and an 8-character lowercase-hexadecimal suffix; the
suffix is the first 8 hex characters of the 128-bit value, hence is
determined by (exactly) its top 32 bits. -/
theorem makeUniqueStackName_shape (stack_name : String) (r : Nat) :
    ∃ suffix : String,
      makeUniqueStackName stack_name r = stack_name ++ "-" ++ suffix ∧
      suffix.length = 8 ∧
      (∀ c ∈ suffix.toList, c ∈ lowerHexDigits) ∧
      suffix = uuid4FirstEight r ∧
      (∀ r' : Nat, r' / 2 ^ 96 % 2 ^ 32 = r / 2 ^ 96 % 2 ^ 32 →
        uuid4FirstEight r' = suffix) := by
  refine ⟨uuid4FirstEight r, rfl, uuid4FirstEight_length r, ?_, rfl, ?_⟩
  · intro c hc
    exact toHexPad_mem_lowerHexDigits _ _ (by simpa [uuid4FirstEight] using hc)
  · intro r' hr
    unfold uuid4FirstEight
    rw [hr]

/-- C3 counterexample: the name generation of `create_stackset_action`
performs no check against already-registered names: even when the draw's
candidate name is already taken (here `"model-monitor-00000000"`), the
namer returns exactly that duplicate rather than regenerating or
signaling; its result type has no failure outcome at all. -/
theorem makeUniqueStackName_returns_registered_duplicate :
    makeUniqueStackName "model-monitor" 0 = "model-monitor-00000000" ∧
    makeUniqueStackName "model-monitor" 0 ∈ ["model-monitor-00000000"] := by
  constructor
  · rfl
  · simp [makeUniqueStackName, uuid4FirstEight, toHexPad, hexDigit]

/-- C3 amended: the name generation never consults the names already in
use and never retries or signals exhaustion: it unconditionally returns
the prefix, a hyphen, and the random suffix, and two invocations whose
random draws agree on the top 32 bits return the same (duplicate) name. -/
theorem makeUniqueStackName_no_retry (stack_name : String) (r r' : Nat)
    (h : r / 2 ^ 96 % 2 ^ 32 = r' / 2 ^ 96 % 2 ^ 32) :
    makeUniqueStackName stack_name r = stack_name ++ "-" ++ uuid4FirstEight r ∧
    makeUniqueStackName stack_name r = makeUniqueStackName stack_name r' := by
  refine ⟨rfl, ?_⟩
  unfold makeUniqueStackName uuid4FirstEight
  rw [h]

/-- C3 amended witness: draws `0` and `2 ^ 128` share their top 32 bits,
and the namer returns the same name for both. -/
theorem makeUniqueStackName_no_retry_witness :
    (0 : Nat) / 2 ^ 96 % 2 ^ 32 = 2 ^ 128 / 2 ^ 96 % 2 ^ 32 ∧
    (makeUniqueStackName "mlops" 0 = "mlops" ++ "-" ++ uuid4FirstEight 0 ∧
      makeUniqueStackName "mlops" 0 = makeUniqueStackName "mlops" (2 ^ 128)) :=
  ⟨by norm_num, makeUniqueStackName_no_retry "mlops" 0 (2 ^ 128) (by norm_num)⟩

/-- C4: for a role whose conditional list carries one statement paired
with a feature flag, where the statement is not among the unconditional
statements: with the flag false the statement is absent from the
materialized union, with the flag true it is present exactly once. -/
theorem conditional_statement_materialization (role : ExecutionRole)
    (s : PermissionStatement) (flag : Bool)
    (hcond : role.conditionalStatements = [(s, flag)])
    (hbase : s ∉ role.statements) :
    (flag = false → s ∉ materializedStatements role) ∧
    (flag = true → (materializedStatements role).count s = 1) := by
  constructor
  · intro hf
    subst hf
    simp [materializedStatements, hcond, hbase]
  · intro hf
    subst hf
    simp [materializedStatements, hcond, List.count_append,
      List.count_eq_zero_of_not_mem hbase]

/-- C4 witness: the sagemaker role of `create_data_baseline_job` with the
customer-supplied-key flag true carries the KMS statement exactly once in
its materialized statements. -/
theorem conditional_statement_materialization_witness :
    (createBaselineSagemakerRole "assets" "train/data.csv" "out" "baseline-job"
        "role-arn" "kms-arn" true).conditionalStatements =
      [(kms_policy_document "kms-arn", true)] ∧
    (materializedStatements
        (createBaselineSagemakerRole "assets" "train/data.csv" "out" "baseline-job"
          "role-arn" "kms-arn" true)).count (kms_policy_document "kms-arn") = 1 :=
  ⟨rfl,
    (conditional_statement_materialization
      (createBaselineSagemakerRole "assets" "train/data.csv" "out" "baseline-job"
        "role-arn" "kms-arn" true)
      (kms_policy_document "kms-arn") true rfl (by decide)).2 rfl⟩

/-- C5: a successfully built plan satisfies the dependency order — every
input artifact whose producing stage is found in the plan has the
producer's run order strictly below the consumer's — and on the spec's
two-stage example, `[A(1), B(2, inputs=A.output)]` builds successfully
while `[A(2), B(1, inputs=A.output)]` signals `DependencyOrderViolation`
naming stage `B` and artifact `A.output`. -/
theorem buildPlan_dependency_order :
    (∀ stages out, buildPlan stages = .ok out →
      ∀ s ∈ stages, ∀ a ∈ s.inputs, ∀ p, a.producingStage = some p →
        ∀ t, stages.find? (fun u => u.name = p) = some t →
          t.runOrder < s.runOrder) ∧
    buildPlan [stageA1, stageB2] = .ok [stageA1, stageB2] ∧
    buildPlan [stageA2, stageB1] = .error (.DependencyOrderViolation "B" "A.output") := by
  refine ⟨fun stages out h => buildPlan_ok_order h, ?_, ?_⟩ <;> rfl

/-- C5 witness: on the well-ordered example, the producing stage `A` runs
strictly before the consuming stage `B`. -/
theorem buildPlan_dependency_order_witness :
    stageA1.runOrder < stageB2.runOrder :=
  buildPlan_dependency_order.1 [stageA1, stageB2] [stageA1, stageB2] rfl
    stageB2 (by decide) { producingStage := some "A", path := "A.output" } (by decide)
    "A" rfl stageA1 (by decide)

/-- C6: for every category other than key-management, `buildPolicy`
signals `EmptyResourceSet` on an empty identifier set, and whenever it
succeeds its statement's resource set is non-empty, so a permission
statement with empty resources is never constructed. -/
theorem buildPolicy_empty_resource_set (cat : Category)
    (h : cat ≠ .keyManagement) :
    buildPolicy cat [] = .error .EmptyResourceSet ∧
    ∀ ids s, buildPolicy cat ids = .ok s → s.resources ≠ [] := by
  constructor
  · rfl
  · intro ids s hok
    unfold buildPolicy at hok
    split at hok
    case isTrue => cases hok
    case isFalse hne =>
      have hs : mkStatement cat ids = s := by
        simpa using hok
      subst hs
      intro hnil
      apply hne
      have : ids = [] := (List.dedup_eq_nil _).mp (by simpa [mkStatement] using hnil)
      simp [this]

/-- C6 witness: `buildPolicy` on `storage-read` with the empty set. -/
theorem buildPolicy_empty_resource_set_witness :
    Category.storageRead ≠ Category.keyManagement ∧
    (buildPolicy .storageRead [] = .error .EmptyResourceSet ∧
      ∀ ids s, buildPolicy .storageRead ids = .ok s → s.resources ≠ []) :=
  ⟨by decide, buildPolicy_empty_resource_set .storageRead (by decide)⟩

/-- C7 counterexample: not every caller-supplied configuration value
appears in the stage environment: `batch_transform`'s `batch_input_bucket`
(a resource locator, here the distinct value `"the-batch-input-bucket"`)
feeds only the read policy and occurs nowhere among the environment's
values. -/
theorem batch_transform_env_missing_input_bucket :
    "the-batch-input-bucket" ∉
      ((batch_transform "m" "ml.m5.large" "assets" "the-batch-input-bucket"
          "data.csv" "out" "kms").environment).map Prod.snd := by
  decide

/-- C7 amended: every configuration value the two stage assemblers place
in their environment mappings is exactly the value the caller supplied,
unmodified and uninterpreted; however not every caller-supplied value is
placed there (`batch_input_bucket` feeds only the read policy). -/
theorem stage_environments_pass_through (model_name inference_instance
    assets_bucket_name batch_input_bucket batch_inference_data
    batch_job_output_location kms_key_arn baseline_job_name endpoint_name
    training_data_location baseline_job_output_location instance_type
    instance_volume_size max_runtime_seconds role_arn stack_name : String) :
    (let env := (batch_transform model_name inference_instance assets_bucket_name
        batch_input_bucket batch_inference_data batch_job_output_location
        kms_key_arn).environment
     env.lookup "model_name" = some model_name ∧
     env.lookup "inference_instance" = some inference_instance ∧
     env.lookup "assets_bucket" = some assets_bucket_name ∧
     env.lookup "batch_inference_data" = some batch_inference_data ∧
     env.lookup "batch_job_output_location" = some batch_job_output_location ∧
     env.lookup "kms_key_arn" = some kms_key_arn) ∧
    (let env := createDataBaselineJobEnvironment baseline_job_name
        assets_bucket_name endpoint_name training_data_location
        baseline_job_output_location instance_type instance_volume_size
        max_runtime_seconds role_arn kms_key_arn stack_name
     env.lookup "BASELINE_JOB_NAME" = some baseline_job_name ∧
     env.lookup "ASSETS_BUCKET" = some assets_bucket_name ∧
     env.lookup "SAGEMAKER_ENDPOINT_NAME" = some endpoint_name ∧
     env.lookup "TRAINING_DATA_LOCATION" = some training_data_location ∧
     env.lookup "BASELINE_JOB_OUTPUT_LOCATION" = some baseline_job_output_location ∧
     env.lookup "INSTANCE_TYPE" = some instance_type ∧
     env.lookup "INSTANCE_VOLUME_SIZE" = some instance_volume_size ∧
     env.lookup "MAX_RUNTIME_SECONDS" = some max_runtime_seconds ∧
     env.lookup "ROLE_ARN" = some role_arn ∧
     env.lookup "KMS_KEY_ARN" = some kms_key_arn ∧
     env.lookup "STACK_NAME" = some stack_name) := by
  exact ⟨⟨rfl, rfl, rfl, rfl, rfl, rfl⟩,
    ⟨rfl, rfl, rfl, rfl, rfl, rfl, rfl, rfl, rfl, rfl, rfl⟩⟩

/-- C8: for every invocation of the stackset-action factory, regardless of
all arguments and of the random draw, the produced action's run order is
the constant 1. -/
theorem create_stackset_action_run_order_one (action_name artifact
    template_file stage_params_file accound_ids org_ids regions
    stack_name : String) (r : Nat) :
    (create_stackset_action action_name artifact template_file
      stage_params_file accound_ids org_ids regions stack_name r).runOrder = 1 :=
  rfl

/-- C9: the stack-management policies attached by the stackset-action
factory are scoped to the same freshly suffixed stack name that is passed
as `stackset_name` in the action's user parameters, and the caller's
un-suffixed stack name is never that name (the suffixed name is strictly
longer). -/
theorem create_stackset_action_scoped_to_suffixed_name (action_name artifact
    template_file stage_params_file accound_ids org_ids regions
    stack_name : String) (r : Nat) :
    (create_stackset_action action_name artifact template_file
        stage_params_file accound_ids org_ids regions stack_name r).userParameters.lookup
        "stackset_name" = some (makeUniqueStackName stack_name r) ∧
    (create_stackset_action action_name artifact template_file
        stage_params_file accound_ids org_ids regions stack_name r).stackManagementPolicies =
      [cloudformation_stackset_policy (makeUniqueStackName stack_name r),
       cloudformation_stackset_instances_policy (makeUniqueStackName stack_name r)] ∧
    makeUniqueStackName stack_name r ≠ stack_name := by
  refine ⟨rfl, rfl, ?_⟩
  intro he
  have hlen : (makeUniqueStackName stack_name r).length = stack_name.length := by
    rw [he]
  rw [makeUniqueStackName] at hlen
  rw [String.length_append, String.length_append, uuid4FirstEight_length] at hlen
  omega

/-- C10: the custom-resource property map contains `function_name` and
`message` with their defaults unless the caller's map supplies the key, in
which case the caller's value wins; every other caller-supplied pair is
looked up unchanged. -/
theorem customResourceProperties_defaults_and_overrides
    (lambda_function_name : String) (props : List (String × String))
    (h : (props.map Prod.fst).Nodup) :
    (customResourceProperties lambda_function_name props).lookup "function_name" =
      some ((props.lookup "function_name").getD lambda_function_name) ∧
    (customResourceProperties lambda_function_name props).lookup "message" =
      some ((props.lookup "message").getD
        ("Invoking lambda function: " ++ lambda_function_name)) ∧
    (∀ k, k ≠ "function_name" → k ≠ "message" →
      (customResourceProperties lambda_function_name props).lookup k =
        props.lookup k) := by
  unfold customResourceProperties
  refine ⟨?_, ?_, ?_⟩
  · rw [lookup_dictUpdate _ _ _ h]
    cases hx : props.lookup "function_name" with
    | some v => simp
    | none => simp [lookup_cons]
  · rw [lookup_dictUpdate _ _ _ h]
    cases hx : props.lookup "message" with
    | some v => simp
    | none => simp [lookup_cons]
  · intro k h1 h2
    rw [lookup_dictUpdate _ _ _ h]
    cases hx : props.lookup k with
    | some v => simp [hx]
    | none => simp [hx, lookup_cons, h1, h2]

/-- C10 witness: the caller overrides `function_name` and adds `color`. -/
theorem customResourceProperties_defaults_and_overrides_witness :
    ((([("function_name", "override"), ("color", "blue")] :
        List (String × String)).map Prod.fst).Nodup) ∧
    (customResourceProperties "fn"
        [("function_name", "override"), ("color", "blue")]).lookup "function_name" =
      some ((([("function_name", "override"), ("color", "blue")] :
        List (String × String)).lookup "function_name").getD "fn") :=
  ⟨by decide,
    (customResourceProperties_defaults_and_overrides "fn"
      [("function_name", "override"), ("color", "blue")] (by decide)).1⟩

end DeployActions
